import Mathlib

/-!
Verification of the resellers bot core (src/main.py).

The Python source is shallowly embedded: Python strings are modelled as
`List Char`, JSON documents as an inductive `Json` type, currency amounts
(Python floats, used only for exact decimal bookkeeping here) as `ℚ`, and
each stateful operation as a pure function from an explicit state to a new
state.  One stock bucket file is modelled as `Option (List Char)` (`none`
means the file does not exist).  The purchase flow (`generate`, the
`ConfirmGenerateView` button handlers) is embedded as functions over a
small world record holding the user ledger, the touched stock bucket and
the per-user purchase log.
-/

/-- Python `str.strip()` whitespace test, restricted to the ASCII whitespace
characters (the keys handled by the bot are ASCII license keys). -/

def pyIsSpace (c : Char) : Bool :=
  c = ' ' || c = '\t' || c = '\n' || c = '\r' || c = '\x0b' || c = '\x0c'

/-- Left part of Python `str.strip()`. -/

def stripLeft (s : List Char) : List Char :=
  s.dropWhile pyIsSpace

/-- Right part of Python `str.strip()`. -/

def stripRight (s : List Char) : List Char :=
  (s.reverse.dropWhile pyIsSpace).reverse

/-- Python `str.strip()` on a string modelled as a char list. -/

def strip (s : List Char) : List Char :=
  stripRight (stripLeft s)

/-- Python `content.split('\n')` on a char-list string: the list of chunks
between newline characters (always at least one chunk, possibly empty). -/

def splitNL : List Char → List (List Char)
  | [] => [[]]
  | c :: rest =>
    if c = '\n' then [] :: splitNL rest
    else
      match splitNL rest with
      | [] => [[c]]
      | h :: t => (c :: h) :: t

/-- Python `'\n'.join(chunks)`. -/

def joinNL : List (List Char) → List Char
  | [] => []
  | [s] => s
  | s :: t :: rest => s ++ '\n' :: joinNL (t :: rest)

/-!
## Stock store (`StockManager` in src/main.py)

A bucket (the file `stock/{product}_{duration}.txt`) is `Option (List Char)`:
`none` when the file does not exist, `some content` otherwise.
-/

/-- The line parse shared by `get_stock_count` and `pull_keys`
(src/main.py lines 95 and 111):
`[line.strip() for line in content.split('\n') if line.strip()]`. -/

def parseLines (content : List Char) : List (List Char) :=
  ((splitNL content).map strip).filter (fun t => !t.isEmpty)

/-- `StockManager.get_stock_count` (src/main.py lines 88-100): the number of
non-blank stripped lines; `0` when the file is absent. -/

def get_stock_count (bucket : Option (List Char)) : Nat :=
  match bucket with
  | none => 0
  | some content => (parseLines content).length

/-- `StockManager.pull_keys` (src/main.py lines 102-127): returns the pulled
keys and the new file state.  Absent file or fewer lines than `quantity`
returns `[]` and leaves the file untouched; otherwise the first `quantity`
parsed lines are removed and the remainder is written back joined by
newlines. -/

def pull_keys (bucket : Option (List Char)) (quantity : Nat) :
    List (List Char) × Option (List Char) :=
  match bucket with
  | none => ([], none)
  | some content =>
    let lines := parseLines content
    if lines.length < quantity then ([], some content)
    else (lines.take quantity, some (joinNL (lines.drop quantity)))

/-- `StockManager.add_stock` (src/main.py lines 129-138): opens the file in
append mode (creating it when absent) and writes `f"{key.strip()}\n"` for
each key. -/

def add_stock (bucket : Option (List Char)) (keys : List (List Char)) :
    Option (List Char) :=
  some (bucket.getD [] ++ (keys.map (fun k => strip k ++ ['\n'])).flatten)

/-- The lines a stored text file consists of (a trailing newline terminates
the last line rather than opening an empty one, matching Python
`str.splitlines` on newline-terminated text). Used to state what `add_stock`
physically stores. -/

def fileLines (content : List Char) : List (List Char) :=
  if content = [] then []
  else if content.getLast? = some '\n' then (splitNL content).dropLast
  else splitNL content

/-!
## Ledger (`DataManager` in src/main.py)

`data/users.json` is modelled at two levels.  The JSON level keeps the raw
parse result of the file and is used for the read/write contracts of
`get_user_data` / `update_user_data`; the account level fixes the ledger to
its well-formed shape (a map from user-id strings to accounts) and is used
by the purchase flow.
-/

/-- A parsed JSON value (`json.loads` result). An object is the parsed dict:
an association list with unique keys. -/

inductive Json where
  | obj : List (String × Json) → Json
  | arr : List Json → Json
  | str : String → Json
  | num : ℚ → Json
  | bool : Bool → Json
  | null : Json

/-- The state of a JSON file on disk: absent, present but raising on read or
on `json.loads` (I/O error or invalid JSON), or present and parsed. -/

inductive FileState where
  | absent
  | unreadable
  | parsed (j : Json)

/-- A Python exception escaping an embedded operation. -/

inductive PyErr where
  | attributeError
  | typeError
deriving DecidableEq

/-- Python `dict` lookup (`d.get(key)` / `key in d`) on an association list
with unique keys. -/

def lookupKey {α : Type} : List (String × α) → String → Option α
  | [], _ => none
  | (k, v) :: rest, key => if k = key then some v else lookupKey rest key

/-- Python `d[key] = v` on an association list with unique keys: replaces in
place, or appends a new binding at the end (dict insertion order). -/

def setKey {α : Type} : List (String × α) → String → α → List (String × α)
  | [], key, v => [(key, v)]
  | (k, w) :: rest, key, v =>
    if k = key then (k, v) :: rest else (k, w) :: setKey rest key v

/-- `DataManager.load_json` (src/main.py lines 34-46): the parsed document,
or the supplied default when the file is absent or reading/parsing raises
(the exception is swallowed). -/

def load_json (file : FileState) (default : Json) : Json :=
  match file with
  | .absent => default
  | .unreadable => default
  | .parsed j => j

/-- Python `users.get(user_id, default)`: succeeds on a dict, raises
`AttributeError` on any other value (`.get` does not exist there). -/

def jsonGet (j : Json) (key : String) (default : Json) : Except PyErr Json :=
  match j with
  | .obj kvs => .ok ((lookupKey kvs key).getD default)
  | _ => .error .attributeError

/-- Python `users[user_id] = data`: succeeds on a dict, raises `TypeError`
on any other JSON value. -/

def jsonSet (j : Json) (key : String) (v : Json) : Except PyErr Json :=
  match j with
  | .obj kvs => .ok (.obj (setKey kvs key v))
  | _ => .error .typeError

/-- The zero-default account dict `{"balance": 0.0, "discount": 0,
"total_keys": 0}` (src/main.py line 59). -/

def defaultAccountJson : Json :=
  .obj [("balance", .num 0), ("discount", .num 0), ("total_keys", .num 0)]

/-- `DataManager.get_user_data` (src/main.py lines 56-59) at the JSON level:
load the ledger (default `{}`), then `users.get(user_id, zero-default)`. -/

def get_user_data (file : FileState) (user_id : String) : Except PyErr Json :=
  jsonGet (load_json file (.obj [])) user_id defaultAccountJson

/-- `DataManager.update_user_data` (src/main.py lines 61-65) at the JSON
level: load the ledger (default `{}`), set one key, save the whole document
(the resulting file state is the saved document). -/

def update_user_data (file : FileState) (user_id : String) (data : Json) :
    Except PyErr FileState :=
  match jsonSet (load_json file (.obj [])) user_id data with
  | .ok j => .ok (.parsed j)
  | .error e => .error e

/-- Field access on a JSON object, for stating field-for-field round trips. -/

def jsonField (j : Json) (key : String) : Option Json :=
  match j with
  | .obj kvs => lookupKey kvs key
  | _ => none

/-- A well-formed ledger entry: `{balance, discount, total_keys}`
(balances are Python floats used as exact decimal amounts, embedded as `ℚ`;
`discount` and `total_keys` are Python ints). -/

structure Account where
  balance : ℚ
  discount : ℤ
  total_keys : ℤ
deriving DecidableEq

/-- Serialization of an account as stored in `data/users.json`. -/

def accountToJson (a : Account) : Json :=
  .obj [("balance", .num a.balance), ("discount", .num (a.discount : ℚ)),
        ("total_keys", .num (a.total_keys : ℚ))]

/-- `DataManager.get_user_data` specialized to a well-formed parsed ledger:
the stored account or the zero-default `{0.0, 0, 0}`. -/

def get_user_account (users : List (String × Account)) (user_id : String) : Account :=
  (lookupKey users user_id).getD ⟨0, 0, 0⟩

/-- `DataManager.update_user_data` specialized to a well-formed parsed
ledger. -/

def update_user_account (users : List (String × Account)) (user_id : String)
    (a : Account) : List (String × Account) :=
  setKey users user_id a

/-- `add_balance` admin command (src/main.py lines 490-499):
`user_data["balance"] += amount`, no sign check on `amount`. -/

def add_balance (users : List (String × Account)) (user_id : String)
    (amount : ℚ) : List (String × Account) :=
  let a := get_user_account users user_id
  update_user_account users user_id { a with balance := a.balance + amount }

/-- `remove_balance` admin command (src/main.py lines 504-513):
`user_data["balance"] = max(0, user_data["balance"] - amount)`. -/

def remove_balance (users : List (String × Account)) (user_id : String)
    (amount : ℚ) : List (String × Account) :=
  let a := get_user_account users user_id
  update_user_account users user_id { a with balance := max 0 (a.balance - amount) }

/-!
## Purchase flow (`generate` command and `ConfirmGenerateView`, src/main.py)

The world a purchase touches: the user ledger (well-formed), the one stock
bucket for the quoted `(product, duration)` pair, and the per-user purchase
log.  Log lines are modelled structurally (user id plus the facts the
formatted message at src/main.py line 361 contains, minus the timestamp).
-/

/-- The data a purchase log line carries (src/main.py lines 361-362). -/

structure LogRec where
  uid : String
  product : String
  duration : String
  quantity : Nat
  total : ℚ
  discount : ℤ
deriving DecidableEq

/-- The state a purchase interacts with. -/

structure PWorld where
  users : List (String × Account)
  bucket : Option (List Char)
  logs : List LogRec

/-- The fields `ConfirmGenerateView.__init__` stores (src/main.py
lines 274-283). -/

structure ViewState where
  user_id : Nat
  product : String
  duration : String
  quantity : Nat
  base_price : ℚ
  total_cost : ℚ
  discount : ℤ

/-- Outcome of the `generate` slash command (src/main.py lines 630-721). -/

inductive QuoteOutcome where
  | invalidQuantity
  | unknownProduct
  | insufficientStock (requested : Nat) (available : Nat)
  | pricingMissing
  | quote (v : ViewState)

/-- Outcome of the `ConfirmGenerateView.generate_keys` button handler. -/

inductive GenOutcome where
  | notYourConfirmation
  | insufficientBalance
  | insufficientStock (requested : Nat) (available : Nat)
  | pullError
  | success (keys : List (List Char))

/-- Outcome of the `ConfirmGenerateView.cancel_generation` button handler. -/

inductive CancelOutcome where
  | cannotCancel
  | cancelled

/-- The log record written at src/main.py lines 361-362. -/

def purchaseLog (v : ViewState) : LogRec :=
  ⟨toString v.user_id, v.product, v.duration, v.quantity, v.total_cost, v.discount⟩

/-- src/main.py lines 318-367: the continuation of
`ConfirmGenerateView.generate_keys` after `pull_keys` returned `keys` and
left the bucket in state `bucket'`.  If the number of keys differs from the
requested quantity the handler returns before the debit, stat update and
log; otherwise it debits `total_cost`, adds `quantity` to `total_keys`,
persists the account and appends the log entry. -/

def after_pull (w : PWorld) (v : ViewState) (keys : List (List Char))
    (bucket' : Option (List Char)) : GenOutcome × PWorld :=
  if keys.length ≠ v.quantity then
    (.pullError, { w with bucket := bucket' })
  else
    let user_data := get_user_account w.users (toString v.user_id)
    let user_data' : Account :=
      { user_data with
        balance := user_data.balance - v.total_cost,
        total_keys := user_data.total_keys + (v.quantity : ℤ) }
    (.success keys,
      { users := update_user_account w.users (toString v.user_id) user_data',
        bucket := bucket',
        logs := w.logs ++ [purchaseLog v] })

/-- `ConfirmGenerateView.generate_keys` (src/main.py lines 285-367), run by
`actor` against world `w`: requester identity check, balance re-check, stock
re-check, pull, then `after_pull`. -/

def generate_keys (w : PWorld) (actor : Nat) (v : ViewState) :
    GenOutcome × PWorld :=
  if actor ≠ v.user_id then (.notYourConfirmation, w)
  else
    let current_balance := (get_user_account w.users (toString v.user_id)).balance
    if current_balance < v.total_cost then (.insufficientBalance, w)
    else
      let stock_count := get_stock_count w.bucket
      if stock_count < v.quantity then (.insufficientStock v.quantity stock_count, w)
      else
        let pulled := pull_keys w.bucket v.quantity
        after_pull w v pulled.1 pulled.2

/-- `ConfirmGenerateView.cancel_generation` (src/main.py lines 369-374):
either branch only sends a message; the world is untouched. -/

def cancel_generation (w : PWorld) (actor : Nat) (v : ViewState) :
    CancelOutcome × PWorld :=
  if actor ≠ v.user_id then (.cannotCancel, w) else (.cancelled, w)

/-- The `generate` slash command (src/main.py lines 630-721): validates the
quantity, the catalog entry, the stock level and the price, then computes
the discounted total and returns the quote (the `ConfirmGenerateView` it
offers).  `products` is `data/products.json`, `config` the price table
`data/config.json`, `bucket` the stock file of `(product, duration)`.
The command never compares the balance against the total: it only renders
the would-be remaining balance in the embed. -/

def generate (products : List (String × List String))
    (config : List (String × List (String × ℚ)))
    (users : List (String × Account)) (bucket : Option (List Char))
    (uid : Nat) (product : String) (duration : String) (quantity : Int) :
    QuoteOutcome :=
  if quantity ≤ 0 ∨ 10 < quantity then .invalidQuantity
  else if duration ∉ (lookupKey products product).getD [] then .unknownProduct
  else
    let stock_count := get_stock_count bucket
    if stock_count < quantity.toNat then .insufficientStock quantity.toNat stock_count
    else
      match lookupKey config product with
      | none => .pricingMissing
      | some prices =>
        match lookupKey prices duration with
        | none => .pricingMissing
        | some base_price =>
          let user_data := get_user_account users (toString uid)
          let discount_multiplier : ℚ := (100 - (user_data.discount : ℚ)) / 100
          let total_cost := base_price * (quantity.toNat : ℚ) * discount_multiplier
          .quote ⟨uid, product, duration, quantity.toNat, base_price, total_cost,
                  user_data.discount⟩

theorem dropWhile_dropWhile (p : Char → Bool) (l : List Char) :
    (l.dropWhile p).dropWhile p = l.dropWhile p := by
  induction l with
  | nil => rfl
  | cons a l ih =>
    by_cases h : p a
    · simp [List.dropWhile_cons, h, ih]
    · simp [List.dropWhile_cons, h]

theorem stripRight_stripRight (s : List Char) :
    stripRight (stripRight s) = stripRight s := by
  simp [stripRight, dropWhile_dropWhile]

theorem stripLeft_head_not_space {s : List Char} {c : Char} {u : List Char}
    (h : stripLeft s = c :: u) : pyIsSpace c = false := by
  have := List.head?_dropWhile_not pyIsSpace s
  rw [stripLeft] at h
  rw [h] at this
  simpa using this

theorem stripRight_cons (c : Char) (u : List Char) :
    stripRight (c :: u) =
      if stripRight u = [] then (if pyIsSpace c then [] else [c])
      else c :: stripRight u := by
  have hrev : (c :: u).reverse = u.reverse ++ [c] := by simp
  rw [stripRight, hrev, List.dropWhile_append]
  by_cases h : (u.reverse.dropWhile pyIsSpace).isEmpty
  · have hu : stripRight u = [] := by
      rw [stripRight]
      simp_all [List.isEmpty_iff]
    rw [if_pos h, hu, if_pos rfl]
    by_cases hc : pyIsSpace c
    · simp [List.dropWhile_cons, hc]
    · simp [List.dropWhile_cons, hc]
  · have hu : ¬ stripRight u = [] := by
      rw [stripRight]
      simp_all [List.isEmpty_iff]
    rw [if_neg h, if_neg hu]
    simp [stripRight]

theorem stripLeft_strip (s : List Char) : stripLeft (strip s) = strip s := by
  rw [strip]
  cases hL : stripLeft s with
  | nil => rfl
  | cons c u =>
    have hc : pyIsSpace c = false := stripLeft_head_not_space hL
    rw [stripRight_cons]
    by_cases hu : stripRight u = []
    · simp [hu, hc, stripLeft, List.dropWhile_cons]
    · simp [hu, hc, stripLeft, List.dropWhile_cons]

/-- `strip` is idempotent: stripping an already stripped string changes nothing. -/

theorem strip_strip (s : List Char) : strip (strip s) = strip s := by
  conv_lhs => rw [strip, stripLeft_strip]
  rw [strip, stripRight_stripRight]

theorem mem_stripRight {a : Char} {s : List Char} (h : a ∈ stripRight s) : a ∈ s := by
  rw [stripRight] at h
  rw [List.mem_reverse] at h
  have := (List.dropWhile_sublist (l := s.reverse) pyIsSpace).subset h
  simpa using this

theorem mem_strip {a : Char} {s : List Char} (h : a ∈ strip s) : a ∈ s := by
  rw [strip] at h
  have h1 : a ∈ stripLeft s := mem_stripRight h
  rw [stripLeft] at h1
  exact (List.dropWhile_sublist pyIsSpace).subset h1

theorem splitNL_ne_nil (s : List Char) : splitNL s ≠ [] := by
  induction s with
  | nil => simp [splitNL]
  | cons c rest ih =>
    rw [splitNL]
    by_cases h : c = '\n'
    · simp [h]
    · cases hr : splitNL rest with
      | nil => simp [h, hr]
      | cons x t => simp [h, hr]

theorem splitNL_no_nl {s : List Char} {t : List Char}
    (h : t ∈ splitNL s) : '\n' ∉ t := by
  induction s generalizing t with
  | nil =>
    simp [splitNL] at h
    simp [h]
  | cons c rest ih =>
    rw [splitNL] at h
    by_cases hc : c = '\n'
    · rw [if_pos hc] at h
      rcases List.mem_cons.mp h with h' | h'
      · simp [h']
      · exact ih h'
    · rw [if_neg hc] at h
      cases hr : splitNL rest with
      | nil => exact absurd hr (splitNL_ne_nil rest)
      | cons x xt =>
        rw [hr] at h
        rcases List.mem_cons.mp h with h' | h'
        · subst h'
          intro hmem
          rcases List.mem_cons.mp hmem with h'' | h''
          · exact hc h''.symm
          · exact ih (hr ▸ List.mem_cons_self x xt) h''
        · exact ih (hr ▸ List.mem_cons_of_mem x h')

theorem splitNL_of_no_nl {s : List Char} (h : '\n' ∉ s) : splitNL s = [s] := by
  induction s with
  | nil => rfl
  | cons c rest ih =>
    have hc : ¬ c = '\n' := fun hc => h (hc ▸ List.mem_cons_self c rest)
    have hrest : '\n' ∉ rest := fun hm => h (List.mem_cons_of_mem c hm)
    rw [splitNL, if_neg hc, ih hrest]

theorem splitNL_append_nl {xs : List Char} (ys : List Char) (h : '\n' ∉ xs) :
    splitNL (xs ++ '\n' :: ys) = xs :: splitNL ys := by
  induction xs with
  | nil => simp [splitNL]
  | cons c rest ih =>
    have hc : ¬ c = '\n' := fun hc => h (hc ▸ List.mem_cons_self c rest)
    have hrest : '\n' ∉ rest := fun hm => h (List.mem_cons_of_mem c hm)
    rw [List.cons_append, splitNL, if_neg hc, ih hrest]

theorem splitNL_joinNL {l : List (List Char)}
    (h : ∀ t ∈ l, '\n' ∉ t) (hne : l ≠ []) : splitNL (joinNL l) = l := by
  induction l with
  | nil => exact absurd rfl hne
  | cons x rest ih =>
    cases rest with
    | nil =>
      rw [joinNL, splitNL_of_no_nl (h x (List.mem_cons_self x []))]
    | cons y t =>
      rw [joinNL, splitNL_append_nl _ (h x (List.mem_cons_self x _))]
      rw [ih (fun u hu => h u (List.mem_cons_of_mem x hu)) (by simp)]

theorem parseLines_props {c : List Char} {t : List Char}
    (h : t ∈ parseLines c) : strip t = t ∧ t ≠ [] ∧ '\n' ∉ t := by
  rw [parseLines] at h
  rw [List.mem_filter] at h
  obtain ⟨hmem, hne⟩ := h
  rw [List.mem_map] at hmem
  obtain ⟨u, hu, hsu⟩ := hmem
  subst hsu
  refine ⟨strip_strip u, ?_, ?_⟩
  · intro hnil
    rw [hnil] at hne
    simp at hne
  · intro hmem
    exact splitNL_no_nl hu (mem_strip hmem)

theorem parseLines_joinNL {l : List (List Char)}
    (h : ∀ t ∈ l, strip t = t ∧ t ≠ [] ∧ '\n' ∉ t) :
    parseLines (joinNL l) = l := by
  cases hl : l with
  | nil => rfl
  | cons x rest =>
    rw [← hl, parseLines, splitNL_joinNL (fun t ht => (h t ht).2.2) (hl ▸ List.cons_ne_nil x rest)]
    have hmap : l.map strip = l := by
      have := List.map_congr_left (l := l) (f := strip) (g := id)
        (fun t ht => (h t ht).1)
      simpa using this
    rw [hmap]
    apply List.filter_eq_self.mpr
    intro t ht
    simpa using (h t ht).2.1

theorem lookupKey_setKey {α : Type} (l : List (String × α)) (key : String) (v : α) :
    lookupKey (setKey l key v) key = some v := by
  induction l with
  | nil => simp [setKey, lookupKey]
  | cons p rest ih =>
    obtain ⟨k, w⟩ := p
    by_cases h : k = key
    · simp [setKey, lookupKey, h]
    · simp [setKey, lookupKey, h, ih]

/-!
## Helper lemmas about the embedded operations
-/

theorem pull_keys_some_of_ge {c : List Char} {n : Nat}
    (h : ¬ (parseLines c).length < n) :
    pull_keys (some c) n =
      ((parseLines c).take n, some (joinNL ((parseLines c).drop n))) := by
  simp [pull_keys, h]

theorem pull_keys_some_of_lt {c : List Char} {n : Nat}
    (h : (parseLines c).length < n) :
    pull_keys (some c) n = ([], some c) := by
  simp [pull_keys, h]

theorem parseLines_joinNL_drop (c : List Char) (n : Nat) :
    parseLines (joinNL ((parseLines c).drop n)) = (parseLines c).drop n := by
  apply parseLines_joinNL
  intro t ht
  exact parseLines_props (List.mem_of_mem_drop ht)

theorem get_user_account_update (users : List (String × Account))
    (uid : String) (a : Account) :
    get_user_account (update_user_account users uid a) uid = a := by
  rw [get_user_account, update_user_account, lookupKey_setKey]
  rfl

/-!
## Claims
-/

/-- C3: for every bucket state and every requested quantity `n`,
`pull(p,d,n)` followed immediately by `count(p,d)` yields a count exactly
`n` smaller than before when the pull succeeds (at least `n` keys were
available), and exactly the same as before when the pull signals
insufficiency (fewer than `n` keys available); in the latter case the
bucket's backing store is completely untouched, so no partial removal ever
occurs. -/

theorem C3_pull_then_count (bucket : Option (List Char)) (n : Nat) :
    (n ≤ get_stock_count bucket →
      get_stock_count (pull_keys bucket n).2 + n = get_stock_count bucket)
    ∧ (get_stock_count bucket < n →
      (pull_keys bucket n).2 = bucket ∧
      get_stock_count (pull_keys bucket n).2 = get_stock_count bucket) := by
  cases bucket with
  | none =>
    refine ⟨fun h => ?_, fun h => ⟨rfl, rfl⟩⟩
    simp only [get_stock_count] at h ⊢
    simp [pull_keys]
    omega
  | some c =>
    constructor
    · intro h
      simp only [get_stock_count] at h ⊢
      have hn : ¬ (parseLines c).length < n := not_lt.mpr h
      rw [pull_keys_some_of_ge hn]
      simp only [get_stock_count]
      rw [parseLines_joinNL_drop, List.length_drop]
      omega
    · intro h
      simp only [get_stock_count] at h
      rw [pull_keys_some_of_lt h]
      exact ⟨rfl, rfl⟩

/-- Witness for C3 at a concrete bucket: the file `"a\nb"` holds two keys;
pulling 1 leaves a count of 1 (2 - 1), and pulling 5 signals insufficiency
and leaves the count at 2 with the file untouched. -/

theorem C3_pull_then_count_witness :
    (1 ≤ get_stock_count (some ['a', '\n', 'b']) ∧
      get_stock_count (pull_keys (some ['a', '\n', 'b']) 1).2 + 1 =
        get_stock_count (some ['a', '\n', 'b']))
    ∧ (get_stock_count (some ['a', '\n', 'b']) < 5 ∧
      (pull_keys (some ['a', '\n', 'b']) 5).2 = some ['a', '\n', 'b'] ∧
      get_stock_count (pull_keys (some ['a', '\n', 'b']) 5).2 =
        get_stock_count (some ['a', '\n', 'b'])) :=
  ⟨⟨by decide, (C3_pull_then_count (some ['a', '\n', 'b']) 1).1 (by decide)⟩,
   ⟨by decide, (C3_pull_then_count (some ['a', '\n', 'b']) 5).2 (by decide)⟩⟩

/-- C5: stock issuance is FIFO — for an initially empty bucket (no backing
file), `add(p,d,[k1,k2])` followed by `pull(p,d,2)` returns `[k1, k2]` in
that order.  The keys are quantified over all well-formed stock entries
(single non-blank lines already trimmed of surrounding whitespace, which is
what §3 of the spec defines a stock entry to be). -/

theorem C5_fifo_add_then_pull (k1 k2 : List Char)
    (h1 : strip k1 = k1) (h2 : k1 ≠ []) (h3 : '\n' ∉ k1)
    (h4 : strip k2 = k2) (h5 : k2 ≠ []) (h6 : '\n' ∉ k2) :
    (pull_keys (add_stock none [k1, k2]) 2).1 = [k1, k2] := by
  have hcontent : add_stock none [k1, k2] = some (k1 ++ '\n' :: (k2 ++ '\n' :: [])) := by
    simp [add_stock, h1, h4]
  have hsplit : splitNL (k1 ++ '\n' :: (k2 ++ '\n' :: [])) = [k1, k2, []] := by
    rw [splitNL_append_nl _ h3, splitNL_append_nl _ h6]
    rfl
  have hparse : parseLines (k1 ++ '\n' :: (k2 ++ '\n' :: [])) = [k1, k2] := by
    have e1 : k1.isEmpty = false := by simpa [List.isEmpty_iff] using h2
    have e2 : k2.isEmpty = false := by simpa [List.isEmpty_iff] using h5
    rw [parseLines, hsplit]
    simp only [List.map_cons, List.map_nil, h1, h4]
    have h0 : strip ([] : List Char) = [] := rfl
    rw [h0]
    simp [List.filter, e1, e2]
  rw [hcontent]
  have hlen : ¬ (parseLines (k1 ++ '\n' :: (k2 ++ '\n' :: []))).length < 2 := by
    rw [hparse]; simp
  rw [pull_keys_some_of_ge hlen, hparse]
  rfl

/-- Witness for C5 with the concrete keys `"a"` and `"b"`. -/

theorem C5_fifo_add_then_pull_witness :
    (strip ['a'] = ['a'] ∧ ['a'] ≠ [] ∧ '\n' ∉ ['a'] ∧
     strip ['b'] = ['b'] ∧ ['b'] ≠ [] ∧ '\n' ∉ ['b']) ∧
    (pull_keys (add_stock none [['a'], ['b']]) 2).1 = [['a'], ['b']] :=
  ⟨by decide,
   C5_fifo_add_then_pull ['a'] ['b'] (by decide) (by decide) (by decide)
     (by decide) (by decide) (by decide)⟩

/-- C2: in the confirmed-purchase path, if the pull of keys returned a
number of keys different from the requested quantity, the handler returns
before the debit, the stat update and the logging: the purchaser's balance
is not debited, `total_keys` is not incremented (the ledger is completely
unchanged) and no log entry is written.  `after_pull` is the continuation
of `ConfirmGenerateView.generate_keys` from src/main.py line 318 on,
applied to whatever `pull_keys` returned. -/

theorem C2_abort_on_pull_mismatch (w : PWorld) (v : ViewState)
    (keys : List (List Char)) (bucket' : Option (List Char))
    (h : keys.length ≠ v.quantity) :
    after_pull w v keys bucket' = (.pullError, { w with bucket := bucket' }) ∧
    (after_pull w v keys bucket').2.users = w.users ∧
    (after_pull w v keys bucket').2.logs = w.logs := by
  simp [after_pull, h]

/-- Witness for C2: a pull that returned no keys against a requested
quantity of 1 leaves the ledger and the log untouched. -/

theorem C2_abort_on_pull_mismatch_witness :
    (([] : List (List Char)).length ≠ (1 : Nat)) ∧
    (after_pull ⟨[("7", ⟨100, 0, 0⟩)], none, []⟩ ⟨7, "P", "1d", 1, 10, 10, 0⟩ [] none).2.users
      = [("7", ⟨100, 0, 0⟩)] ∧
    (after_pull ⟨[("7", ⟨100, 0, 0⟩)], none, []⟩ ⟨7, "P", "1d", 1, 10, 10, 0⟩ [] none).2.logs
      = [] :=
  ⟨by decide,
   (C2_abort_on_pull_mismatch ⟨[("7", ⟨100, 0, 0⟩)], none, []⟩
      ⟨7, "P", "1d", 1, 10, 10, 0⟩ [] none (by decide)).2.1,
   (C2_abort_on_pull_mismatch ⟨[("7", ⟨100, 0, 0⟩)], none, []⟩
      ⟨7, "P", "1d", 1, 10, 10, 0⟩ [] none (by decide)).2.2⟩

/-- C9: for every pending quote, a confirm or cancel action issued by any
identity other than the original requester is rejected with no side
effects: the world (ledger, stock bucket, logs) is returned unchanged, so
no keys are pulled, no balance is debited, no account field changes and no
log entry is written. -/

theorem C9_foreign_identity_rejected (w : PWorld) (actor : Nat) (v : ViewState)
    (h : actor ≠ v.user_id) :
    generate_keys w actor v = (.notYourConfirmation, w) ∧
    cancel_generation w actor v = (.cannotCancel, w) := by
  simp [generate_keys, cancel_generation, h]

/-- Witness for C9: user 8 confirming or cancelling user 7's quote changes
nothing. -/

theorem C9_foreign_identity_rejected_witness :
    ((8 : Nat) ≠ 7) ∧
    generate_keys ⟨[("7", ⟨100, 0, 0⟩)], some ['a'], []⟩ 8 ⟨7, "P", "1d", 1, 10, 10, 0⟩
      = (.notYourConfirmation, ⟨[("7", ⟨100, 0, 0⟩)], some ['a'], []⟩) ∧
    cancel_generation ⟨[("7", ⟨100, 0, 0⟩)], some ['a'], []⟩ 8 ⟨7, "P", "1d", 1, 10, 10, 0⟩
      = (.cannotCancel, ⟨[("7", ⟨100, 0, 0⟩)], some ['a'], []⟩) :=
  ⟨by decide,
   (C9_foreign_identity_rejected ⟨[("7", ⟨100, 0, 0⟩)], some ['a'], []⟩ 8
      ⟨7, "P", "1d", 1, 10, 10, 0⟩ (by decide)).1,
   (C9_foreign_identity_rejected ⟨[("7", ⟨100, 0, 0⟩)], some ['a'], []⟩ 8
      ⟨7, "P", "1d", 1, 10, 10, 0⟩ (by decide)).2⟩

/-- C6 counterexample: the quote-producing `generate` command does NOT
reject on insufficient balance.  Concrete input: catalog has product `"P"`
with duration `"1d"` priced at 10, one key in stock, and the requester has
the zero-default account (balance 0, discount 0).  The discounted total is
10, strictly above the balance, yet `generate` still returns a quote — it
offers the confirmation action instead of rejecting. -/

theorem C6_counterexample :
    (get_user_account [] (toString (7 : Nat))).balance < 10 ∧
    generate [("P", ["1d"])] [("P", [("1d", 10)])] [] (some ['a', '\n'])
        7 "P" "1d" 1 = .quote ⟨7, "P", "1d", 1, 10, 10, 0⟩ := by
  constructor
  · norm_num [get_user_account, lookupKey]
  · have hsc : get_stock_count (some ['a', '\n']) = 1 := by decide
    norm_num [generate, lookupKey, get_user_account, hsc]

/-- C6 as amended: the quote step (steps 1-6) checks quantity, catalog,
stock and price but not the balance; the "insufficient balance" rejection
happens at the confirmation step instead — when the requester confirms and
the stored balance is below the quoted total, `generate_keys` rejects with
an insufficient-balance error and no side effects, before any key is
pulled. -/

theorem C6_balance_checked_at_confirmation (w : PWorld) (actor : Nat)
    (v : ViewState) (hid : actor = v.user_id)
    (hbal : (get_user_account w.users (toString v.user_id)).balance < v.total_cost) :
    generate_keys w actor v = (.insufficientBalance, w) := by
  simp [generate_keys, hid, hbal]

/-- Witness for the amended C6: requester 7 with the zero-default account
confirms a quote with total 10 and is rejected with no side effects. -/

theorem C6_balance_checked_at_confirmation_witness :
    ((get_user_account ([] : List (String × Account)) (toString ((7 : Nat)))).balance < 10) ∧
    generate_keys ⟨[], some ['a', '\n'], []⟩ 7 ⟨7, "P", "1d", 1, 10, 10, 0⟩
      = (.insufficientBalance, ⟨[], some ['a', '\n'], []⟩) :=
  ⟨by norm_num [get_user_account, lookupKey],
   C6_balance_checked_at_confirmation ⟨[], some ['a', '\n'], []⟩ 7
     ⟨7, "P", "1d", 1, 10, 10, 0⟩ rfl (by norm_num [get_user_account, lookupKey])⟩

theorem generate_keys_success_inv {w : PWorld} {actor : Nat} {v : ViewState}
    {keys : List (List Char)} {w' : PWorld}
    (h : generate_keys w actor v = (.success keys, w')) :
    actor = v.user_id ∧
    ¬ (get_user_account w.users (toString v.user_id)).balance < v.total_cost ∧
    keys = (pull_keys w.bucket v.quantity).1 ∧
    w' = { users := update_user_account w.users (toString v.user_id)
            { get_user_account w.users (toString v.user_id) with
              balance :=
                (get_user_account w.users (toString v.user_id)).balance - v.total_cost,
              total_keys :=
                (get_user_account w.users (toString v.user_id)).total_keys
                  + (v.quantity : ℤ) },
           bucket := (pull_keys w.bucket v.quantity).2,
           logs := w.logs ++ [purchaseLog v] } := by
  simp only [generate_keys, after_pull] at h
  split_ifs at h with hid hbal hstock hlen
  · exact absurd (congrArg Prod.fst h) (by simp)
  · exact absurd (congrArg Prod.fst h) (by simp)
  · exact absurd (congrArg Prod.fst h) (by simp)
  · exact absurd (congrArg Prod.fst h) (by simp)
  · rw [Prod.mk.injEq, GenOutcome.success.injEq] at h
    exact ⟨not_not.mp hid, hbal, h.1.symm, h.2.symm⟩

/-- C4 counterexample: the claim says an admin balance addition keeps the
balance non-negative, but `add_balance` applies `balance += amount` with no
sign check, so an admin adding a negative amount drives a zero-default
account's stored balance below zero. -/

theorem C4_counterexample :
    (get_user_account (add_balance [] "7" (-5)) "7").balance < 0 := by
  norm_num [add_balance, get_user_account, update_user_account, lookupKey, setKey]

/-- C4 as amended: balances stay non-negative under admin removal
(unconditional clamp at zero), under purchase debit (the sufficiency check
precedes the debit, so a successful confirmation never leaves the
purchaser's balance negative), and under admin addition provided the added
amount is non-negative — the non-negative-amount proviso is forced by the
counterexample, since `add_balance` itself performs no sign check. -/

theorem C4_balance_nonneg :
    (∀ (users : List (String × Account)) (uid : String) (amount : ℚ),
        0 ≤ amount → 0 ≤ (get_user_account users uid).balance →
        0 ≤ (get_user_account (add_balance users uid amount) uid).balance)
    ∧ (∀ (users : List (String × Account)) (uid : String) (amount : ℚ),
        0 ≤ (get_user_account (remove_balance users uid amount) uid).balance)
    ∧ (∀ (w : PWorld) (actor : Nat) (v : ViewState) (keys : List (List Char))
        (w' : PWorld), generate_keys w actor v = (.success keys, w') →
        0 ≤ (get_user_account w'.users (toString v.user_id)).balance) := by
  refine ⟨?_, ?_, ?_⟩
  · intro users uid amount h0 hb
    simp only [add_balance, get_user_account_update]
    exact add_nonneg hb h0
  · intro users uid amount
    simp only [remove_balance, get_user_account_update]
    exact le_max_left 0 _
  · intro w actor v keys w' h
    obtain ⟨-, hbal, -, hw'⟩ := generate_keys_success_inv h
    subst hw'
    simp only [get_user_account_update]
    exact sub_nonneg.mpr (not_lt.mp hbal)

/-- Witness for the amended C4, exercising all three conjuncts: a
non-negative admin addition, an admin removal that would overdraw (clamped
to zero), and a concrete successful purchase debit. -/

theorem C4_balance_nonneg_witness :
    ((0 : ℚ) ≤ 5 ∧ 0 ≤ (get_user_account [] "7").balance ∧
      0 ≤ (get_user_account (add_balance [] "7" 5) "7").balance) ∧
    (0 ≤ (get_user_account (remove_balance [("7", ⟨3, 0, 0⟩)] "7" 10) "7").balance) ∧
    (generate_keys ⟨[("7", ⟨100, 50, 2⟩)], some ['a', '\n'], []⟩ 7
        ⟨7, "P", "1d", 1, 10, 5, 50⟩
      = (.success [['a']],
         ⟨[("7", ⟨95, 50, 3⟩)], some [], [⟨"7", "P", "1d", 1, 5, 50⟩]⟩) ∧
      0 ≤ (get_user_account
            (⟨[("7", ⟨95, 50, 3⟩)], some [], [⟨"7", "P", "1d", 1, 5, 50⟩]⟩ : PWorld).users
            (toString (⟨7, "P", "1d", 1, 10, 5, 50⟩ : ViewState).user_id)).balance) := by
  have hrun :
      generate_keys ⟨[("7", ⟨100, 50, 2⟩)], some ['a', '\n'], []⟩ 7
        ⟨7, "P", "1d", 1, 10, 5, 50⟩
      = (.success [['a']],
         ⟨[("7", ⟨95, 50, 3⟩)], some [], [⟨"7", "P", "1d", 1, 5, 50⟩]⟩) := by
    have ht : toString (7 : Nat) = "7" := rfl
    have hsc : get_stock_count (some ['a', '\n']) = 1 := by decide
    have hpull : pull_keys (some ['a', '\n']) 1 = ([['a']], some []) := by decide
    norm_num [generate_keys, after_pull, ht, hsc, hpull, get_user_account, lookupKey,
      update_user_account, setKey, purchaseLog]
  refine ⟨⟨by norm_num, ?_, ?_⟩, ?_, hrun, ?_⟩
  · norm_num [get_user_account, lookupKey]
  · exact C4_balance_nonneg.1 [] "7" 5 (by norm_num)
      (by norm_num [get_user_account, lookupKey])
  · exact C4_balance_nonneg.2.1 [("7", ⟨3, 0, 0⟩)] "7" 10
  · exact C4_balance_nonneg.2.2 ⟨[("7", ⟨100, 50, 2⟩)], some ['a', '\n'], []⟩ 7
      ⟨7, "P", "1d", 1, 10, 5, 50⟩ [['a']]
      ⟨[("7", ⟨95, 50, 3⟩)], some [], [⟨"7", "P", "1d", 1, 5, 50⟩]⟩ hrun

theorem generate_quote_inv {products : List (String × List String)}
    {config : List (String × List (String × ℚ))}
    {users : List (String × Account)} {bucket : Option (List Char)}
    {uid : Nat} {product duration : String} {quantity : Int} {v : ViewState}
    (h : generate products config users bucket uid product duration quantity
          = .quote v) :
    ∃ prices base_price,
      lookupKey config product = some prices ∧
      lookupKey prices duration = some base_price ∧
      v = ⟨uid, product, duration, quantity.toNat, base_price,
           base_price * (quantity.toNat : ℚ) *
             ((100 - ((get_user_account users (toString uid)).discount : ℚ)) / 100),
           (get_user_account users (toString uid)).discount⟩ := by
  by_cases hq : quantity ≤ 0 ∨ 10 < quantity
  · simp [generate, hq] at h
  · by_cases hd : duration ∉ (lookupKey products product).getD []
    · simp [generate, hq, hd] at h
    · by_cases hst : get_stock_count bucket < quantity.toNat
      · simp [generate, hq, hd, hst] at h
      · cases hcp : lookupKey config product with
        | none => simp [generate, hq, hd, hst, hcp] at h
        | some prices =>
          cases hpd : lookupKey prices duration with
          | none => simp [generate, hq, hd, hst, hcp, hpd] at h
          | some base_price =>
            refine ⟨prices, base_price, rfl, hpd, ?_⟩
            simp only [generate] at h
            rw [if_neg hq, if_neg hd, if_neg hst, hcp] at h
            simp only [hpd, QuoteOutcome.quote.injEq] at h
            exact h.symm

/-- C1: for every valid, completed purchase of quantity `q` of a
`(product, duration)` with unit price `p` by a user whose discount is `d`,
the user's new balance equals `old_balance - p*q*(100-d)/100` (the
discounted total) and `total_keys` increases by exactly `q`.  A valid,
completed purchase is the composition the code implements: the `generate`
command returns a quote `v` (so `q = v.quantity`), and the requester's
confirmation `generate_keys` succeeds against the same state. -/

theorem C1_purchase_formula
    (products : List (String × List String))
    (config : List (String × List (String × ℚ)))
    (users : List (String × Account)) (bucket : Option (List Char))
    (logs : List LogRec) (uid : Nat) (product duration : String)
    (quantity : Int) (v : ViewState) (prices : List (String × ℚ)) (p : ℚ)
    (d : ℤ) (keys : List (List Char)) (w' : PWorld)
    (hq : generate products config users bucket uid product duration quantity
            = .quote v)
    (hp : lookupKey config product = some prices)
    (hpp : lookupKey prices duration = some p)
    (hd : (get_user_account users (toString uid)).discount = d)
    (hrun : generate_keys ⟨users, bucket, logs⟩ uid v = (.success keys, w')) :
    (get_user_account w'.users (toString uid)).balance
      = (get_user_account users (toString uid)).balance
        - p * (v.quantity : ℚ) * (100 - (d : ℚ)) / 100
    ∧ (get_user_account w'.users (toString uid)).total_keys
      = (get_user_account users (toString uid)).total_keys + (v.quantity : ℤ) := by
  obtain ⟨prices2, p2, hcp2, hpd2, hv⟩ := generate_quote_inv hq
  rw [hp] at hcp2
  injection hcp2 with hpe
  subst hpe
  rw [hpp] at hpd2
  injection hpd2 with hpe2
  subst hpe2
  subst hd
  subst hv
  obtain ⟨-, -, -, hw'⟩ := generate_keys_success_inv hrun
  subst hw'
  simp only [get_user_account_update]
  constructor
  · ring
  · trivial

/-- Witness for C1: price 10, discount 50%, quantity 1 — the quote totals 5,
the confirmed purchase debits exactly 5 (balance 100 becomes 95) and
`total_keys` goes from 2 to 3. -/

theorem C1_purchase_formula_witness :
    (generate [("P", ["1d"])] [("P", [("1d", 10)])] [("7", ⟨100, 50, 2⟩)]
        (some ['a', '\n']) 7 "P" "1d" 1 = .quote ⟨7, "P", "1d", 1, 10, 5, 50⟩) ∧
    (generate_keys ⟨[("7", ⟨100, 50, 2⟩)], some ['a', '\n'], []⟩ 7
        ⟨7, "P", "1d", 1, 10, 5, 50⟩
      = (.success [['a']],
         ⟨[("7", ⟨95, 50, 3⟩)], some [], [⟨"7", "P", "1d", 1, 5, 50⟩]⟩)) ∧
    (get_user_account [("7", ⟨95, 50, 3⟩)] (toString (7 : Nat))).balance
      = (get_user_account [("7", ⟨100, 50, 2⟩)] (toString (7 : Nat))).balance
        - 10 * (((⟨7, "P", "1d", 1, 10, 5, 50⟩ : ViewState).quantity : ℚ))
          * (100 - ((50 : ℤ) : ℚ)) / 100 ∧
    (get_user_account [("7", ⟨95, 50, 3⟩)] (toString (7 : Nat))).total_keys
      = (get_user_account [("7", ⟨100, 50, 2⟩)] (toString (7 : Nat))).total_keys
        + (((⟨7, "P", "1d", 1, 10, 5, 50⟩ : ViewState).quantity : ℤ)) := by
  have ht : toString (7 : Nat) = "7" := rfl
  have hsc : get_stock_count (some ['a', '\n']) = 1 := by decide
  have hpull : pull_keys (some ['a', '\n']) 1 = ([['a']], some []) := by decide
  have hq : generate [("P", ["1d"])] [("P", [("1d", 10)])] [("7", ⟨100, 50, 2⟩)]
      (some ['a', '\n']) 7 "P" "1d" 1 = .quote ⟨7, "P", "1d", 1, 10, 5, 50⟩ := by
    norm_num [generate, lookupKey, get_user_account, ht, hsc]
  have hrun : generate_keys ⟨[("7", ⟨100, 50, 2⟩)], some ['a', '\n'], []⟩ 7
      ⟨7, "P", "1d", 1, 10, 5, 50⟩
      = (.success [['a']],
         ⟨[("7", ⟨95, 50, 3⟩)], some [], [⟨"7", "P", "1d", 1, 5, 50⟩]⟩) := by
    norm_num [generate_keys, after_pull, ht, hsc, hpull, get_user_account, lookupKey,
      update_user_account, setKey, purchaseLog]
  have hmain := C1_purchase_formula [("P", ["1d"])] [("P", [("1d", 10)])]
    [("7", ⟨100, 50, 2⟩)] (some ['a', '\n']) [] 7 "P" "1d" 1
    ⟨7, "P", "1d", 1, 10, 5, 50⟩ [("1d", 10)] 10 50 [['a']]
    ⟨[("7", ⟨95, 50, 3⟩)], some [], [⟨"7", "P", "1d", 1, 5, 50⟩]⟩
    hq rfl rfl rfl hrun
  exact ⟨hq, hrun, hmain.1, hmain.2⟩

/-- C7 counterexample: the account-read operation CAN raise.  When
`data/users.json` holds valid JSON that is not an object (here the JSON
array `[]`), `load_json` parses it without error and returns it, and
`users.get(user_id, default)` then raises `AttributeError` instead of
returning the zero-default account. -/

theorem C7_counterexample :
    get_user_data (.parsed (.arr [])) "1" = .error .attributeError := rfl

/-- C7 as amended: the account read never raises and returns the stored
value or the zero-default provided the ledger file is absent, unreadable or
unparsable (both swallowed into the default empty mapping), or parses to a
JSON object; only a valid-JSON non-object ledger (the counterexample) makes
it raise. -/

theorem C7_get_user_data_total :
    ∀ (kvs : List (String × Json)) (user_id : String),
      get_user_data (.parsed (.obj kvs)) user_id
        = .ok ((lookupKey kvs user_id).getD defaultAccountJson)
      ∧ get_user_data .absent user_id = .ok defaultAccountJson
      ∧ get_user_data .unreadable user_id = .ok defaultAccountJson := by
  intro kvs user_id
  exact ⟨rfl, rfl, rfl⟩

/-- C8: round-trip — for every ledger file state on which the write
completes, every user id and every account value, writing the account via
`update_user_data` and re-reading it via `get_user_data` returns exactly
the serialized account, whose `balance`, `discount` and `total_keys`
fields are the values written. -/

theorem C8_put_get_roundtrip (file : FileState) (user_id : String)
    (a : Account) (f2 : FileState)
    (h : update_user_data file user_id (accountToJson a) = .ok f2) :
    get_user_data f2 user_id = .ok (accountToJson a)
    ∧ jsonField (accountToJson a) "balance" = some (.num a.balance)
    ∧ jsonField (accountToJson a) "discount" = some (.num (a.discount : ℚ))
    ∧ jsonField (accountToJson a) "total_keys" = some (.num (a.total_keys : ℚ)) := by
  refine ⟨?_, rfl, rfl, rfl⟩
  rw [update_user_data] at h
  cases hload : load_json file (.obj []) with
  | obj kvs =>
    rw [hload] at h
    simp only [jsonSet] at h
    injection h with h2
    subst h2
    rw [get_user_data, load_json, jsonGet, lookupKey_setKey]
    rfl
  | arr l => rw [hload] at h; simp [jsonSet] at h
  | str s => rw [hload] at h; simp [jsonSet] at h
  | num q => rw [hload] at h; simp [jsonSet] at h
  | bool b => rw [hload] at h; simp [jsonSet] at h
  | null => rw [hload] at h; simp [jsonSet] at h

/-- Witness for C8: writing the account `{balance 3, discount 2,
total_keys 1}` for user `"7"` into an absent ledger file and reading it
back returns exactly that account. -/

theorem C8_put_get_roundtrip_witness :
    (update_user_data .absent "7" (accountToJson ⟨3, 2, 1⟩)
      = .ok (.parsed (.obj [("7", accountToJson ⟨3, 2, 1⟩)]))) ∧
    get_user_data (.parsed (.obj [("7", accountToJson ⟨3, 2, 1⟩)])) "7"
      = .ok (accountToJson ⟨3, 2, 1⟩) :=
  ⟨rfl,
   (C8_put_get_roundtrip .absent "7" ⟨3, 2, 1⟩
     (.parsed (.obj [("7", accountToJson ⟨3, 2, 1⟩)])) rfl).1⟩

/-- C10: the code does not keep the claimed storage shape.  `pull_keys`
rewrites the bucket as `'\n'.join(remaining)` with no trailing newline, and
`add_stock` then appends `f"{key.strip()}\n"` directly, so the first added
key is glued onto the file's last line instead of being stored on a line of
its own: starting from the file `"a\nr1\nr2\n"`-equivalent state, a pull of
1 leaves `"r1\nr2"`, and adding the key `"k1"` produces the stored lines
`["r1", "r2k1"]` — `"k1"` is not among the stored lines.  Separately, a
whitespace-only key strips to the empty string and `add_stock` stores it as
a blank line. -/

theorem C10_add_stock_merges_lines :
    pull_keys (some ['a', '\n', 'r', '1', '\n', 'r', '2']) 1
      = ([['a']], some ['r', '1', '\n', 'r', '2']) ∧
    add_stock (some ['r', '1', '\n', 'r', '2']) [['k', '1']]
      = some ['r', '1', '\n', 'r', '2', 'k', '1', '\n'] ∧
    fileLines ['r', '1', '\n', 'r', '2', 'k', '1', '\n']
      = [['r', '1'], ['r', '2', 'k', '1']] ∧
    ['k', '1'] ∉ fileLines ['r', '1', '\n', 'r', '2', 'k', '1', '\n'] ∧
    fileLines ((add_stock none [[' ']]).getD []) = [[]] := by
  decide
